import Mathlib

/-!
Verification development for the BMSCHAIN serial-to-CSV converter
(`bmschain_gui_serial_to_csv.py`).

The Python source is shallowly embedded: pure functions become Lean
functions, Python exceptions become an explicit `Except` error channel,
and Python `float` values are modelled by `PyFloat`, which carries the
infinity / NaN results that `float(str)` can produce and otherwise an
exact rational (`Rat`).  The numeric-token models (`pyInt?`, `pyFloat?`)
are a decimal-exact, ASCII idealization of the CPython primitives: they
do not reproduce IEEE-754 rounding and overflow, underscore grouping, or
non-ASCII digits, and `pyRepr` covers `repr` only for strings without
quotes or escapes.  The claims proved below use these models only inside
hypotheses that restrict the quantified token sets, never to settle the
accept/reject boundary of the code's own numeric parsing, which is
decided by IEEE-754 double semantics.
-/

/-! ## Python string helpers -/

/-- Model of Python `str.strip()`: remove leading and trailing whitespace
characters. -/
def pyStrip (s : String) : String :=
  ⟨((s.toList.dropWhile Char.isWhitespace).reverse.dropWhile Char.isWhitespace).reverse⟩

/-- Model of `.replace("\r", "").replace("\n", "")`: replacing a
one-character pattern by the empty string deletes every occurrence of that
character. -/
def stripCRLF (s : String) : String :=
  ⟨s.toList.filter (fun c => ¬(c = '\r' ∨ c = '\n'))⟩

/-- A single-quote character as a string (used to model Python `repr`). -/
def squote : String := "\x27"

/-- Model of Python `repr` for the token/label strings that reach error
messages (no embedded quotes or escapes): surround with single quotes. -/
def pyRepr (s : String) : String := squote ++ s ++ squote

/-! ## Python numeric literal parsing (`int(str)` and `float(str)`) -/

/-- Numeric value of a list of decimal digit characters. -/
def digitsVal (cs : List Char) : Nat :=
  cs.foldl (fun acc c => 10 * acc + (c.toNat - 48)) 0

/-- A non-empty all-decimal-digit character list, or `none`. -/
def decDigits? (cs : List Char) : Option Nat :=
  if cs ≠ [] ∧ cs.all Char.isDigit then some (digitsVal cs) else none

/-- Model of Python `int(str)`: surrounding whitespace, an optional sign,
then a non-empty run of decimal digits. -/
def pyInt? (s : String) : Option Int :=
  match (pyStrip s).toList with
  | '+' :: rest => (decDigits? rest).map (fun n => (n : Int))
  | '-' :: rest => (decDigits? rest).map (fun n => -(n : Int))
  | cs => (decDigits? cs).map (fun n => (n : Int))

/-- The result of Python `float(str)`: a finite value (modelled exactly as
a rational), a signed infinity, or NaN. -/
inductive PyFloat where
  | finite (q : Rat)
  | inf (neg : Bool)
  | nan
deriving DecidableEq, Repr

/-- Negation of a parsed float (for a leading minus sign). -/
def PyFloat.negate : PyFloat → PyFloat
  | .finite q => .finite (mkRat (-q.num) q.den)
  | .inf b => .inf (!b)
  | .nan => .nan

/-- Model of `float.is_integer()`: a finite value with zero fractional
part; infinities and NaN are not integral. -/
def PyFloat.is_integer : PyFloat → Bool
  | .finite q => q.den = 1
  | _ => false

/-- Model of `int(float)`: truncation toward zero (only ever applied to
values that satisfy `is_integer`, where it returns the numerator). -/
def PyFloat.toIntVal : PyFloat → Int
  | .finite q => q.num.tdiv (q.den : Int)
  | _ => 0

/-- Split a character list at the first character satisfying `p`;
returns the part before and, when found, the part after it. -/
def splitFirst (p : Char → Bool) : List Char → List Char × Option (List Char)
  | [] => ([], none)
  | c :: rest =>
    if p c then ([], some rest)
    else
      match splitFirst p rest with
      | (a, b) => (c :: a, b)

/-- A signed run of decimal digits (an exponent of a float literal). -/
def expDigits? (cs : List Char) : Option Int :=
  match cs with
  | '+' :: rest => (decDigits? rest).map (fun n => (n : Int))
  | '-' :: rest => (decDigits? rest).map (fun n => -(n : Int))
  | _ => (decDigits? cs).map (fun n => (n : Int))

/-- The mantissa of a float literal: `digits`, `digits.digits`,
`digits.`, or `.digits` (at least one digit overall).  Returns the
combined digit value and the number of fractional digits, so the exact
value is `d * 10 ^ (-k)`. -/
def mantissa? (cs : List Char) : Option (Nat × Nat) :=
  match splitFirst (fun c => c = '.') cs with
  | (ip, none) => (decDigits? ip).map (fun n => (n, 0))
  | (ip, some fp) =>
    if (ip.all Char.isDigit ∧ fp.all Char.isDigit) ∧ (ip ≠ [] ∨ fp ≠ []) then
      some (digitsVal ip * 10 ^ fp.length + digitsVal fp, fp.length)
    else none

/-- The exact rational `d * 10 ^ t` (built with `mkRat` so that it
evaluates by reduction). -/
def decValue (d : Nat) (t : Int) : Rat :=
  if 0 ≤ t then mkRat ((d * 10 ^ t.toNat : Nat) : Int) 1
  else mkRat (d : Int) (10 ^ (-t).toNat)

/-- The sign-stripped body of a Python float literal: `inf`, `infinity`,
`nan` (case-insensitive) or `mantissa[(e|E)exponent]`. -/
def floatBody? (cs : List Char) : Option PyFloat :=
  if cs.map Char.toLower = "inf".toList ∨ cs.map Char.toLower = "infinity".toList then
    some (.inf false)
  else if cs.map Char.toLower = "nan".toList then some .nan
  else
    match splitFirst (fun c => c = 'e' ∨ c = 'E') cs with
    | (mant, none) =>
      (mantissa? mant).map (fun dk => .finite (decValue dk.1 (-(dk.2 : Int))))
    | (mant, some ecs) =>
      match mantissa? mant, expDigits? ecs with
      | some dk, some e => some (.finite (decValue dk.1 (e - (dk.2 : Int))))
      | _, _ => none

/-- Model of Python `float(str)`: surrounding whitespace, an optional
sign, then a float literal body, valued as an exact rational. -/
def pyFloat? (s : String) : Option PyFloat :=
  match (pyStrip s).toList with
  | '+' :: rest => floatBody? rest
  | '-' :: rest => (floatBody? rest).map PyFloat.negate
  | cs => floatBody? cs

/-! ## Error channel -/

/-- The exceptions the converter can raise while parsing one frame:
its own `FrameParseError`, or an uncaught Python `IndexError` from an
out-of-range `tokens[index]` subscript. -/
inductive PyErr where
  | frameParseError (msg : String)
  | indexError
deriving DecidableEq, Repr

deriving instance DecidableEq for Except

/-! ## Token parsers (`parse_int_token`, `parse_float_token`) -/

/-- Embedding of `parse_int_token` (lines 34-44): try `int(token)`, fall
back to `float(token)` when that value has zero fractional part, and
otherwise raise a `FrameParseError` naming the label and raw token. -/
def parse_int_token (token label : String) : Except PyErr Int :=
  match pyInt? token with
  | some n => .ok n
  | none =>
    match pyFloat? token with
    | none => .error (.frameParseError (label ++ " is not an integer: " ++ pyRepr token))
    | some f =>
      if f.is_integer then .ok f.toIntVal
      else .error (.frameParseError (label ++ " is not an integer: " ++ pyRepr token))

/-- Embedding of `parse_float_token` (lines 47-51). -/
def parse_float_token (token label : String) : Except PyErr PyFloat :=
  match pyFloat? token with
  | some f => .ok f
  | none => .error (.frameParseError (label ++ " is not a float: " ++ pyRepr token))

/-- The label-independent value computed by `parse_int_token` when it
succeeds: an integer literal, or a float literal with zero fractional
part. -/
def int_val? (token : String) : Option Int :=
  match pyInt? token with
  | some n => some n
  | none =>
    match pyFloat? token with
    | some (.finite q) => if q.den = 1 then some q.num else none
    | _ => none

/-! ## Tokenizer and frame parser -/

/-- The number of values in each fixed-size section. -/
def CELL_COUNT : Nat := 14

/-- The end-of-frame marker. -/
def FRAME_END_MARKER : String := "ENDData"

/-- Split a character list at each semicolon (model of `str.split(";")`,
which keeps empty pieces). -/
def splitOnSemicolon : List Char → List (List Char)
  | [] => [[]]
  | c :: rest =>
    if c = ';' then [] :: splitOnSemicolon rest
    else
      match splitOnSemicolon rest with
      | [] => [[c]]
      | t :: ts => (c :: t) :: ts

/-- Strip leading and trailing whitespace from a character list. -/
def trimChars (cs : List Char) : List Char :=
  ((cs.dropWhile Char.isWhitespace).reverse.dropWhile Char.isWhitespace).reverse

/-- Embedding of `tokenize_frame` (lines 71-74): delete the byte-order
mark, split on `;`, strip each token and keep the non-empty ones. -/
def tokenize_frame (raw_frame : String) : List String :=
  let normalized := raw_frame.toList.filter (fun c => c ≠ '\uFEFF')
  ((splitOnSemicolon normalized).map (fun t => (⟨trimChars t⟩ : String))).filter (fun t => t ≠ "")

/-- Embedding of `expect_label` (lines 77-84).  The `none` branch of the
inner match is unreachable because the bounds check has already passed. -/
def expect_label (tokens : List String) (index : Nat) (label : String) : Except PyErr Nat :=
  if tokens.length ≤ index then
    .error (.frameParseError ("Expected label " ++ pyRepr label ++ ", but frame ended early"))
  else
    match tokens.get? index with
    | some t =>
      if t = label then .ok (index + 1)
      else
        .error (.frameParseError ("Expected label " ++ pyRepr label ++ " at token " ++
          toString index ++ ", found " ++ pyRepr t))
    | none => .error .indexError

/-- Python list subscription `tokens[index]` for a non-negative index:
the element when in range, otherwise an `IndexError`. -/
def py_get (tokens : List String) (index : Nat) : Except PyErr String :=
  match tokens.get? index with
  | some t => .ok t
  | none => .error .indexError

/-- The value-collecting loop of `parse_fixed_values` (lines 98-101):
`n` elements remain, `cell_index` counts how many are already parsed. -/
def parse_values_loop {α : Type} (tokens : List String) (index : Nat)
    (parser : String → String → Except PyErr α) (section_name : String) :
    Nat → Nat → Except PyErr (List α)
  | 0, _ => .ok []
  | n + 1, cell_index => do
    let tok ← py_get tokens (index + cell_index)
    let v ← parser tok (section_name ++ "[" ++ toString (cell_index + 1) ++ "]")
    let rest ← parse_values_loop tokens index parser section_name n (cell_index + 1)
    pure (v :: rest)

/-- Embedding of `parse_fixed_values` (lines 87-102): check that `count`
tokens remain (else a truncation error naming the section and the count),
then parse them in order. -/
def parse_fixed_values {α : Type} (tokens : List String) (index count : Nat)
    (parser : String → String → Except PyErr α) (section_name : String) :
    Except PyErr (List α × Nat) :=
  if tokens.length < index + count then
    .error (.frameParseError ("Section " ++ pyRepr section_name ++ " is truncated: expected " ++
      toString count ++ " values"))
  else
    (parse_values_loop tokens index parser section_name count 0).map (fun vs => (vs, index + count))

/-- The FAULTS while-loop of `parse_raw_frame` (lines 170-174), with
explicit fuel so that it evaluates by reduction; `n` is the number of
fault values parsed so far.  The loop stops when the tokens run out or
the literal token `VTREF` is reached. -/
def parse_faults_fuel (tokens : List String) : Nat → Nat → Nat → Except PyErr (List Int × Nat)
  | 0, index, _ => .ok ([], index)
  | fuel + 1, index, n =>
    match tokens.get? index with
    | none => .ok ([], index)
    | some tok =>
      if tok = "VTREF" then .ok ([], index)
      else do
        let v ← parse_int_token tok ("FAULTS[" ++ toString (n + 1) ++ "]")
        let (vs, idx2) ← parse_faults_fuel tokens fuel (index + 1) (n + 1)
        pure (v :: vs, idx2)

/-- The FAULTS loop with enough fuel to run to completion. -/
def parse_faults (tokens : List String) (index n : Nat) : Except PyErr (List Int × Nat) :=
  parse_faults_fuel tokens tokens.length index n

/-- The record built by `parse_raw_frame` (lines 179-196). -/
structure ParsedFrame where
  total_devices : Int
  chain_id : Int
  device_id : Int
  soc_values : List Int
  vcell_values : List PyFloat
  temp_values : List PyFloat
  bal_values : List Int
  current_a : PyFloat
  pack_voltage_v : PyFloat
  vref_v : PyFloat
  vuv_threshold_v : PyFloat
  vov_threshold_v : PyFloat
  gput_threshold_v : PyFloat
  gpot_threshold_v : PyFloat
  fault_values : List Int
  vtref_v : PyFloat
deriving DecidableEq, Repr

/-- The token-level body of `parse_raw_frame` (lines 105-196): the strict
sequential grammar over an already tokenized frame.  Value reads use
`py_get`, matching the unchecked `tokens[index]` subscripts of the
source. -/
def parse_frame_tokens (tokens : List String) : Except PyErr ParsedFrame := do
  let i1 ← expect_label tokens 0 "TOTDEV"
  let t1 ← py_get tokens i1
  let total_devices ← parse_int_token t1 "TOTDEV"
  let i2 ← expect_label tokens (i1 + 1) "CHAIN"
  let t2 ← py_get tokens i2
  let chain_id ← parse_int_token t2 "CHAIN"
  let i3 ← expect_label tokens (i2 + 1) "DEV"
  let t3 ← py_get tokens i3
  let device_id ← parse_int_token t3 "DEV"
  let i4 ← expect_label tokens (i3 + 1) "SOC"
  let (soc_values, i5) ← parse_fixed_values tokens i4 CELL_COUNT parse_int_token "SOC"
  let i6 ← expect_label tokens i5 "Vcell:"
  let (vcell_values, i7) ← parse_fixed_values tokens i6 CELL_COUNT parse_float_token "Vcell"
  let i8 ← expect_label tokens i7 "TEMP:"
  let (temp_values, i9) ← parse_fixed_values tokens i8 CELL_COUNT parse_float_token "TEMP"
  let i10 ← expect_label tokens i9 "BAL:"
  let (bal_values, i11) ← parse_fixed_values tokens i10 CELL_COUNT parse_int_token "BAL"
  let i12 ← expect_label tokens i11 "Curr:"
  let t12 ← py_get tokens i12
  let current_a ← parse_float_token t12 "Curr"
  let i13 ← expect_label tokens (i12 + 1) "totV:"
  let t13 ← py_get tokens i13
  let pack_voltage_v ← parse_float_token t13 "totV"
  let i14 ← expect_label tokens (i13 + 1) "Vref:"
  let t14 ← py_get tokens i14
  let vref_v ← parse_float_token t14 "Vref"
  let i15 ← expect_label tokens (i14 + 1) "VUV:"
  let t15 ← py_get tokens i15
  let vuv_threshold_v ← parse_float_token t15 "VUV"
  let i16 ← expect_label tokens (i15 + 1) "VOV:"
  let t16 ← py_get tokens i16
  let vov_threshold_v ← parse_float_token t16 "VOV"
  let i17 ← expect_label tokens (i16 + 1) "GPUT:"
  let t17 ← py_get tokens i17
  let gput_threshold_v ← parse_float_token t17 "GPUT"
  let i18 ← expect_label tokens (i17 + 1) "GPOT:"
  let t18 ← py_get tokens i18
  let gpot_threshold_v ← parse_float_token t18 "GPOT"
  let i19 ← expect_label tokens (i18 + 1) "FAULTS:"
  let (fault_values, i20) ← parse_faults tokens i19 0
  let i21 ← expect_label tokens i20 "VTREF"
  let t21 ← py_get tokens i21
  let vtref_v ← parse_float_token t21 "VTREF"
  pure {
    total_devices := total_devices
    chain_id := chain_id
    device_id := device_id
    soc_values := soc_values
    vcell_values := vcell_values
    temp_values := temp_values
    bal_values := bal_values
    current_a := current_a
    pack_voltage_v := pack_voltage_v
    vref_v := vref_v
    vuv_threshold_v := vuv_threshold_v
    vov_threshold_v := vov_threshold_v
    gput_threshold_v := gput_threshold_v
    gpot_threshold_v := gpot_threshold_v
    fault_values := fault_values
    vtref_v := vtref_v }

/-- Embedding of `parse_raw_frame`: tokenize, then run the sequential
grammar. -/
def parse_raw_frame (raw_frame : String) : Except PyErr ParsedFrame :=
  parse_frame_tokens (tokenize_frame raw_frame)

/-! ## Frame splitter -/

/-- Boolean test that `p` is a prefix of `l` (model of `str.startswith`
and the prefix search inside `str.split(marker, 1)`). -/
def isPrefixList : List Char → List Char → Bool
  | [], _ => true
  | _ :: _, [] => false
  | a :: as, b :: bs => a = b && isPrefixList as bs

/-- Split a character list at the first occurrence of `sep`: the part
before it and the part after it, or `none` when `sep` does not occur. -/
def splitOnceAux (sep : List Char) : List Char → Option (List Char × List Char)
  | [] => none
  | c :: rest =>
    if isPrefixList sep (c :: rest) then some ([], (c :: rest).drop sep.length)
    else
      match splitOnceAux sep rest with
      | none => none
      | some (pre, post) => some (c :: pre, post)

/-- Model of `buffer.split(marker, 1)` restricted to the case where the
marker occurs (the `marker in buffer` guard): the parts before and after
the first occurrence. -/
def py_split_once (s sep : String) : Option (String × String) :=
  match splitOnceAux sep.toList s.toList with
  | none => none
  | some (pre, post) => some (⟨pre⟩, ⟨post⟩)

/-- One run of the inner `while FRAME_END_MARKER in buffer` loop of
`iter_frames_from_text_file` (lines 211-215), with explicit fuel:
repeatedly split off the text before the next marker, strip it, keep it
when non-empty, and return the remaining buffer. -/
def drain_fuel : Nat → String → List String × String
  | 0, buffer => ([], buffer)
  | fuel + 1, buffer =>
    match py_split_once buffer FRAME_END_MARKER with
    | none => ([], buffer)
    | some (before, rest) =>
      let frame := pyStrip before
      let (frames, final) := drain_fuel fuel rest
      (if frame = "" then frames else frame :: frames, final)

/-- The inner while-loop run to completion (the buffer shrinks by at
least the marker length each iteration, so its length is enough fuel). -/
def drain_buffer (buffer : String) : List String × String :=
  drain_fuel buffer.length buffer

/-- The chunk loop of `iter_frames_from_text_file` (lines 204-215):
append each chunk (with carriage returns and line feeds removed) to the
accumulation buffer and drain it.  Returns the yielded frames and the
final buffer, which the source discards at end of input. -/
def iter_chunks_tf : List String → String → List String × String
  | [], buffer => ([], buffer)
  | chunk :: rest, buffer =>
    let b2 := buffer ++ stripCRLF chunk
    let (fs, b3) := drain_buffer b2
    let (fs2, bf) := iter_chunks_tf rest b3
    (fs ++ fs2, bf)

/-- Embedding of `iter_frames_from_text_file`: the frames yielded over a
given sequence of reads, starting from an empty buffer. -/
def iter_frames_from_text_file (chunks : List String) : List String :=
  (iter_chunks_tf chunks "").1

/-- Concatenation of a chunk sequence back into the whole input text. -/
def concatChunks : List String → String
  | [] => ""
  | c :: rest => c ++ concatChunks rest

/-- Splitting the whole text at once: the spec description of the
splitter output — the stripped, non-empty pieces standing before each
occurrence of the marker in the CR/LF-normalized text, in order. -/
def frames_of_text (text : String) : List String :=
  (drain_buffer (stripCRLF text)).1

/-- The `max_frames` stop condition of `iter_frames_from_serial`
(lines 388, 405). -/
def stopAt : Option Nat → Nat → Bool
  | none, _ => false
  | some m, c => m ≤ c

/-- The inner while-loop of `iter_frames_from_serial` (lines 398-406),
with explicit fuel: like `drain_fuel` but counting captured frames and
breaking once `max_frames` is reached. -/
def serial_drain_fuel (maxf : Option Nat) : Nat → String → Nat → List String × String × Nat
  | 0, buffer, captured => ([], buffer, captured)
  | fuel + 1, buffer, captured =>
    match py_split_once buffer FRAME_END_MARKER with
    | none => ([], buffer, captured)
    | some (before, rest) =>
      let frame := pyStrip before
      if frame = "" then
        if stopAt maxf captured then ([], rest, captured)
        else serial_drain_fuel maxf fuel rest captured
      else
        if stopAt maxf (captured + 1) then ([frame], rest, captured + 1)
        else
          let (fs, bf, cf) := serial_drain_fuel maxf fuel rest (captured + 1)
          (frame :: fs, bf, cf)

/-- The serial inner loop run to completion. -/
def serial_drain (maxf : Option Nat) (buffer : String) (captured : Nat) :
    List String × String × Nat :=
  serial_drain_fuel maxf buffer.length buffer captured

/-- The read loop of `iter_frames_from_serial` (lines 382-407) over a
given sequence of received chunks: stop when `max_frames` is reached
(the duration limit is modelled by the chunk list ending), otherwise
append the decoded chunk, normalize the buffer and drain it.  Returns
the yielded frames, the final buffer (discarded by the source) and the
capture count. -/
def iter_serial (maxf : Option Nat) : List String → String → Nat → List String × String × Nat
  | [], buffer, captured => ([], buffer, captured)
  | chunk :: rest, buffer, captured =>
    if stopAt maxf captured then ([], buffer, captured)
    else
      let b2 := stripCRLF (buffer ++ chunk)
      let (fs, b3, c2) := serial_drain maxf b2 captured
      let (fs2, bf, cf) := iter_serial maxf rest b3 c2
      (fs ++ fs2, bf, cf)

/-- Embedding of `iter_frames_from_serial`: frames yielded over a chunk
sequence from an empty buffer and a zero capture count. -/
def iter_frames_from_serial (maxf : Option Nat) (chunks : List String) : List String :=
  (iter_serial maxf chunks "" 0).1

/-! ## Fault column naming -/

/-- Embedding of `strip_prefix` (lines 28-31). -/
def strip_pref (value pre : String) : String :=
  if isPrefixList pre.toList value.toList then ⟨value.toList.drop pre.length⟩ else value

/-- Python `f"{n:03d}"` for a non-negative value: pad with zeros to at
least three digits. -/
def pad3 (n : Nat) : String :=
  if n < 10 then "00" ++ toString n
  else if n < 100 then "0" ++ toString n
  else toString n

/-- Embedding of `build_fault_column_names` (lines 242-254). -/
def build_fault_column_names (fault_count : Nat) (fault_names_from_source : List String) :
    List String :=
  (List.range fault_count).map (fun index =>
    match fault_names_from_source.get? index with
    | some nm => "fault_" ++ pad3 (index + 1) ++ "_" ++ strip_pref nm "AEK_POW_BMS63CHAIN_"
    | none => "fault_" ++ pad3 (index + 1))

/-! ## CSV writer -/

/-- One CSV cell as passed to `csv.writer`: an integer, a float, or a
string (the empty-string padding cells). -/
inductive Cell where
  | int (n : Int)
  | float (x : PyFloat)
  | str (s : String)
deriving DecidableEq, Repr

/-- The header row written by `CsvStreamWriter.__enter__`
(lines 265-285). -/
def csv_headers (fault_columns : List String) : List String :=
  ["frame_index", "total_devices", "chain_id", "device_id"]
    ++ (List.range CELL_COUNT).map (fun c => "soc_cell" ++ toString (c + 1))
    ++ (List.range CELL_COUNT).map (fun c => "vcell" ++ toString (c + 1) ++ "_v")
    ++ (List.range CELL_COUNT).map (fun c => "temp_cell" ++ toString (c + 1) ++ "_raw")
    ++ (List.range CELL_COUNT).map (fun c => "bal_cell" ++ toString (c + 1))
    ++ ["current_a", "pack_voltage_v", "vref_v", "vuv_threshold_v", "vov_threshold_v",
        "gput_threshold_v", "gpot_threshold_v"]
    ++ fault_columns ++ ["vtref_v"]

/-- The row built by `CsvStreamWriter.write_frame` (lines 299-333):
index and identifiers, the four 14-wide sections, the seven scalars, the
fault values truncated to the configured columns and padded with empty
strings, and the final scalar. -/
def write_frame_row (fault_columns : List String) (frame_index : Nat) (f : ParsedFrame) :
    List Cell :=
  let row := [Cell.int frame_index, Cell.int f.total_devices, Cell.int f.chain_id,
    Cell.int f.device_id]
  let row := row ++ f.soc_values.map Cell.int
  let row := row ++ f.vcell_values.map Cell.float
  let row := row ++ f.temp_values.map Cell.float
  let row := row ++ f.bal_values.map Cell.int
  let row := row ++ [Cell.float f.current_a, Cell.float f.pack_voltage_v, Cell.float f.vref_v,
    Cell.float f.vuv_threshold_v, Cell.float f.vov_threshold_v, Cell.float f.gput_threshold_v,
    Cell.float f.gpot_threshold_v]
  let faults := if fault_columns.length < f.fault_values.length then
    f.fault_values.take fault_columns.length else f.fault_values
  let row := row ++ faults.map Cell.int
  let row := if faults.length < fault_columns.length then
    row ++ List.replicate (fault_columns.length - faults.length) (Cell.str "") else row
  row ++ [Cell.float f.vtref_v]

/-! ## Streaming conversion and exit code -/

/-- How a run of `stream_frames_to_csv` can abort: the `RuntimeError`
raised under strict mode, or an exception other than `FrameParseError`
escaping `parse_raw_frame` (not caught by its handler). -/
inductive StreamAbort where
  | runtimeError (msg : String)
  | uncaught (e : PyErr)
deriving DecidableEq, Repr

/-- The loop of `stream_frames_to_csv` (lines 425-441) with its
accumulators: source index, parsed count, skipped count, maximum fault
count.  A `FrameParseError` is re-raised as `RuntimeError` under strict
mode and skipped with a warning otherwise; any other exception
propagates. -/
def stream_go (strict : Bool) :
    List String → Nat → Nat → Nat → Nat → Except StreamAbort (Nat × Nat × Nat)
  | [], _, parsed, skipped, mf => .ok (parsed, skipped, if 0 < mf then mf else 0)
  | f :: rest, idx, parsed, skipped, mf =>
    match parse_raw_frame f with
    | .error (PyErr.frameParseError m) =>
      let msg := "[WARN] Skipped frame #" ++ toString idx ++ ": " ++ m
      if strict then .error (.runtimeError msg)
      else stream_go strict rest (idx + 1) parsed (skipped + 1) mf
    | .error PyErr.indexError => .error (.uncaught PyErr.indexError)
    | .ok fr => stream_go strict rest (idx + 1) (parsed + 1) skipped (max mf fr.fault_values.length)

/-- Embedding of `stream_frames_to_csv` (lines 416-441), restricted to
its counting behaviour (rows are emitted via `write_frame_row`). -/
def stream_frames_to_csv (frames : List String) (strict : Bool) :
    Except StreamAbort (Nat × Nat × Nat) :=
  stream_go strict frames 1 0 0 0

/-- The exit decision at the end of `main` (lines 573-587): report
failure (exit code 1) when no frame parsed, else success (exit code 0). -/
def main_exit_code (parsed_count : Nat) : Nat :=
  if parsed_count = 0 then 1 else 0

/-! ## Well-formed frame description -/

/-- Map a partial value function over a list, succeeding only when every
element succeeds (used to describe sections whose tokens all parse). -/
def optMapList {α : Type} (f : String → Option α) : List String → Option (List α)
  | [] => some []
  | t :: ts =>
    match f t, optMapList f ts with
    | some v, some vs => some (v :: vs)
    | _, _ => none

/-- The token sequence of a frame that follows the grammar of
`parse_raw_frame`: the labels in order, with the given value tokens. -/
def mk_frame_tokens (td ch dv : String) (soc vcell temp bal : List String)
    (curr totv vref vuv vov gput gpot : String) (fts : List String) (vtref : String) :
    List String :=
  "TOTDEV" :: td :: "CHAIN" :: ch :: "DEV" :: dv :: "SOC" ::
    (soc ++ "Vcell:" :: (vcell ++ "TEMP:" :: (temp ++ "BAL:" ::
      (bal ++ "Curr:" :: curr :: "totV:" :: totv :: "Vref:" :: vref :: "VUV:" :: vuv ::
        "VOV:" :: vov :: "GPUT:" :: gput :: "GPOT:" :: gpot :: "FAULTS:" ::
          (fts ++ "VTREF" :: vtref :: [])))))

/-! ## Helper lemmas: monadic and token-list reasoning -/

theorem exbind_ok {ε α β : Type} (a : α) (f : α → Except ε β) :
    (Except.ok a >>= f : Except ε β) = f a := rfl

theorem drop_cons_get? {α : Type} (l : List α) (n : Nat) (c : α) (rest : List α)
    (h : l.drop n = c :: rest) : l.get? n = some c := by
  have := List.get?_drop l n 0
  rw [h] at this
  simpa using this.symm

theorem drop_cons_succ {α : Type} (l : List α) (n : Nat) (c : α) (rest : List α)
    (h : l.drop n = c :: rest) : l.drop (n + 1) = rest := by
  have : l.drop (n + 1) = (l.drop n).drop 1 := by
    rw [List.drop_drop]
  rw [this, h]
  rfl

theorem drop_cons_lt {α : Type} (l : List α) (n : Nat) (c : α) (rest : List α)
    (h : l.drop n = c :: rest) : n < l.length := by
  by_contra hn
  rw [List.drop_eq_nil_iff_le.mpr (by omega)] at h
  exact List.noConfusion h

/-- Stepping over a label token: `expect_label` succeeds and advances. -/
theorem expect_label_drop (tokens : List String) (index : Nat) (lab : String)
    (rest : List String) (h : tokens.drop index = lab :: rest) :
    expect_label tokens index lab = .ok (index + 1) ∧ tokens.drop (index + 1) = rest := by
  have hlt : index < tokens.length := drop_cons_lt _ _ _ _ h
  have hget : tokens.get? index = some lab := drop_cons_get? _ _ _ _ h
  refine ⟨?_, drop_cons_succ _ _ _ _ h⟩
  unfold expect_label
  rw [if_neg (by omega), hget]
  simp

/-- Stepping over a value token: `py_get` returns it. -/
theorem py_get_drop (tokens : List String) (index : Nat) (c : String) (rest : List String)
    (h : tokens.drop index = c :: rest) :
    py_get tokens index = .ok c ∧ tokens.drop (index + 1) = rest := by
  refine ⟨?_, drop_cons_succ _ _ _ _ h⟩
  unfold py_get
  rw [drop_cons_get? _ _ _ _ h]

/-- `parse_int_token` succeeds exactly on the tokens whose
label-independent integer value exists, and then returns it. -/
theorem parse_int_token_of_int_val (token label : String) (n : Int)
    (h : int_val? token = some n) : parse_int_token token label = .ok n := by
  unfold int_val? at h
  unfold parse_int_token
  cases hi : pyInt? token with
  | some m => rw [hi] at h; simp at h; simp [h]
  | none =>
    rw [hi] at h
    cases hf : pyFloat? token with
    | none => rw [hf] at h; simp at h
    | some f =>
      rw [hf] at h
      cases f with
      | finite q =>
        by_cases hd : q.den = 1
        · simp [hd] at h
          simp [PyFloat.is_integer, hd, PyFloat.toIntVal, ← h, Int.tdiv_one]
        · simp [hd] at h
      | inf b => simp at h
      | nan => simp at h

/-- `parse_int_token` fails with the labelled message exactly when the
label-independent integer value does not exist. -/
theorem parse_int_token_of_int_val_none (token label : String)
    (h : int_val? token = none) :
    parse_int_token token label =
      .error (.frameParseError (label ++ " is not an integer: " ++ pyRepr token)) := by
  unfold int_val? at h
  unfold parse_int_token
  cases hi : pyInt? token with
  | some m => rw [hi] at h; simp at h
  | none =>
    rw [hi] at h
    cases hf : pyFloat? token with
    | none => rfl
    | some f =>
      rw [hf] at h
      cases f with
      | finite q =>
        by_cases hd : q.den = 1
        · simp [hd] at h
        · simp [PyFloat.is_integer, hd]
      | inf b => simp [PyFloat.is_integer]
      | nan => simp [PyFloat.is_integer]

/-- `parse_float_token` succeeds exactly on the tokens `float()`
accepts and returns the parsed value. -/
theorem parse_float_token_of_some (token label : String) (f : PyFloat)
    (h : pyFloat? token = some f) : parse_float_token token label = .ok f := by
  unfold parse_float_token
  rw [h]

/-- The value loop parses a section whose tokens all carry values. -/
theorem parse_values_loop_drop {α : Type} (tokens : List String)
    (parser : String → String → Except PyErr α) (name : String)
    (val? : String → Option α)
    (hp : ∀ t l v, val? t = some v → parser t l = Except.ok v) :
    ∀ (sec : List String) (vals : List α) (rest : List String) (index cell_index : Nat),
      optMapList val? sec = some vals →
      tokens.drop (index + cell_index) = sec ++ rest →
      parse_values_loop tokens index parser name sec.length cell_index = .ok vals := by
  intro sec
  induction sec with
  | nil =>
    intro vals rest index ci hv _
    simp [optMapList] at hv
    subst hv
    rfl
  | cons t ts ih =>
    intro vals rest index ci hv hd
    cases hvt : val? t with
    | none => rw [optMapList, hvt] at hv; simp at hv
    | some v =>
      cases hvs : optMapList val? ts with
      | none => rw [optMapList, hvt, hvs] at hv; simp at hv
      | some vs =>
        rw [optMapList, hvt, hvs] at hv
        simp only [Option.some.injEq] at hv
        subst hv
        have hd' : tokens.drop (index + ci) = t :: (ts ++ rest) := by simpa using hd
        obtain ⟨hg, hdrop⟩ := py_get_drop tokens (index + ci) t (ts ++ rest) hd'
        have hdrop2 : tokens.drop (index + (ci + 1)) = ts ++ rest := by
          rw [show index + (ci + 1) = index + ci + 1 by omega]
          exact hdrop
        show parse_values_loop tokens index parser name (ts.length + 1) ci = _
        unfold parse_values_loop
        rw [hg, exbind_ok, hp t _ v hvt, exbind_ok,
          ih vs rest index (ci + 1) hvs hdrop2, exbind_ok]
        rfl

/-- A fixed-count section with exactly its tokens available parses in
order and advances past the section. -/
theorem parse_fixed_values_drop {α : Type} (tokens : List String) (index count : Nat)
    (parser : String → String → Except PyErr α) (name : String)
    (val? : String → Option α)
    (hp : ∀ t l v, val? t = some v → parser t l = Except.ok v)
    (sec rest : List String) (vals : List α)
    (hlen : sec.length = count) (hcount : 0 < count)
    (hv : optMapList val? sec = some vals)
    (hd : tokens.drop index = sec ++ rest) :
    parse_fixed_values tokens index count parser name = .ok (vals, index + count) ∧
    tokens.drop (index + count) = rest := by
  have hne : sec ≠ [] := by intro h; subst h; simp at hlen; omega
  have hlength : tokens.length - index = sec.length + rest.length := by
    have := congrArg List.length hd
    rw [List.length_drop] at this
    simpa using this
  have hlt : index < tokens.length := by
    by_contra hn
    rw [List.drop_eq_nil_iff_le.mpr (by omega)] at hd
    cases hs : sec with
    | nil => exact hne hs
    | cons a as => rw [hs] at hd; exact List.noConfusion hd
  constructor
  · unfold parse_fixed_values
    rw [if_neg (by omega)]
    rw [← hlen,
      parse_values_loop_drop tokens parser name val? hp sec vals rest index 0 hv
        (by simpa using hd)]
    simp [Except.map, hlen]
  · have h2 : tokens.drop (index + count) = (tokens.drop index).drop count := by
      rw [List.drop_drop]
    rw [h2, hd, ← hlen, List.drop_left]

/-- The FAULTS loop consumes exactly the integer tokens standing before
the literal `VTREF` token, in order, given enough fuel. -/
theorem parse_faults_fuel_drop (tokens : List String) :
    ∀ (fts : List String) (vals : List Int) (rest : List String) (fuel index n : Nat),
      tokens.length ≤ index + fuel →
      tokens.drop index = fts ++ "VTREF" :: rest →
      (∀ t, t ∈ fts → t ≠ "VTREF") →
      optMapList int_val? fts = some vals →
      parse_faults_fuel tokens fuel index n = .ok (vals, index + fts.length) ∧
      tokens.drop (index + fts.length) = "VTREF" :: rest := by
  intro fts
  induction fts with
  | nil =>
    intro vals rest fuel index n hfuel hd _ hv
    simp [optMapList] at hv
    subst hv
    have hd' : tokens.drop index = "VTREF" :: rest := by simpa using hd
    have hget := drop_cons_get? _ _ _ _ hd'
    have hlt := drop_cons_lt _ _ _ _ hd'
    cases fuel with
    | zero => omega
    | succ m =>
      constructor
      · unfold parse_faults_fuel
        rw [hget]
        simp
      · simpa using hd'
  | cons t ts ih =>
    intro vals rest fuel index n hfuel hd hne hv
    have hd' : tokens.drop index = t :: (ts ++ "VTREF" :: rest) := by simpa using hd
    have hget := drop_cons_get? _ _ _ _ hd'
    have hlt := drop_cons_lt _ _ _ _ hd'
    have hdrop := drop_cons_succ _ _ _ _ hd'
    cases fuel with
    | zero => omega
    | succ m =>
      cases hvt : int_val? t with
      | none => rw [optMapList, hvt] at hv; simp at hv
      | some v =>
        cases hvs : optMapList int_val? ts with
        | none => rw [optMapList, hvt, hvs] at hv; simp at hv
        | some vs =>
          rw [optMapList, hvt, hvs] at hv
          simp only [Option.some.injEq] at hv
          subst hv
          have hne_t : t ≠ "VTREF" := hne t (by simp)
          obtain ⟨ih1, ih2⟩ := ih vs rest m (index + 1) (n + 1) (by omega) hdrop
            (fun x hx => hne x (by simp [hx])) hvs
          have harith : index + 1 + ts.length = index + (t :: ts).length := by
            simp
            omega
          constructor
          · unfold parse_faults_fuel
            simp only [hget]
            rw [if_neg hne_t, parse_int_token_of_int_val t _ v hvt, exbind_ok, ih1,
              exbind_ok, harith]
            rfl
          · rw [← harith]
            exact ih2

/-- The FAULTS loop of the parser (with its actual fuel). -/
theorem parse_faults_drop (tokens : List String) (fts : List String) (vals : List Int)
    (rest : List String) (index n : Nat)
    (hd : tokens.drop index = fts ++ "VTREF" :: rest)
    (hne : ∀ t, t ∈ fts → t ≠ "VTREF")
    (hv : optMapList int_val? fts = some vals) :
    parse_faults tokens index n = .ok (vals, index + fts.length) ∧
    tokens.drop (index + fts.length) = "VTREF" :: rest :=
  parse_faults_fuel_drop tokens fts vals rest tokens.length index n (by omega) hd hne hv

/-- A token sequence following the frame grammar parses successfully,
field by field, in encounter order. -/
theorem parse_frame_tokens_complete
    (td ch dv curr totv vref vuv vov gput gpot vtref : String)
    (soc vcell temp bal fts : List String)
    (tdv chv dvv : Int) (socv : List Int) (vcellv tempv : List PyFloat) (balv : List Int)
    (currv totvv vrefv vuvv vovv gputv gpotv vtv : PyFloat) (ftsv : List Int)
    (h1 : int_val? td = some tdv) (h2 : int_val? ch = some chv) (h3 : int_val? dv = some dvv)
    (hsoc : optMapList int_val? soc = some socv) (hsoclen : soc.length = 14)
    (hvcell : optMapList pyFloat? vcell = some vcellv) (hvcelllen : vcell.length = 14)
    (htemp : optMapList pyFloat? temp = some tempv) (htemplen : temp.length = 14)
    (hbal : optMapList int_val? bal = some balv) (hballen : bal.length = 14)
    (hcurr : pyFloat? curr = some currv) (htotv : pyFloat? totv = some totvv)
    (hvref : pyFloat? vref = some vrefv) (hvuv : pyFloat? vuv = some vuvv)
    (hvov : pyFloat? vov = some vovv) (hgput : pyFloat? gput = some gputv)
    (hgpot : pyFloat? gpot = some gpotv)
    (hfts : optMapList int_val? fts = some ftsv) (hftsne : ∀ t, t ∈ fts → t ≠ "VTREF")
    (hvtref : pyFloat? vtref = some vtv) :
    parse_frame_tokens
        (mk_frame_tokens td ch dv soc vcell temp bal curr totv vref vuv vov gput gpot fts vtref) =
      .ok {
        total_devices := tdv
        chain_id := chv
        device_id := dvv
        soc_values := socv
        vcell_values := vcellv
        temp_values := tempv
        bal_values := balv
        current_a := currv
        pack_voltage_v := totvv
        vref_v := vrefv
        vuv_threshold_v := vuvv
        vov_threshold_v := vovv
        gput_threshold_v := gputv
        gpot_threshold_v := gpotv
        fault_values := ftsv
        vtref_v := vtv } := by
  have hpInt : ∀ t l v, int_val? t = some v → parse_int_token t l = Except.ok v :=
    fun t l v h => parse_int_token_of_int_val t l v h
  have hpFloat : ∀ t l v, pyFloat? t = some v → parse_float_token t l = Except.ok v :=
    fun t l v h => parse_float_token_of_some t l v h
  obtain ⟨e1, d1⟩ := expect_label_drop
    (mk_frame_tokens td ch dv soc vcell temp bal curr totv vref vuv vov gput gpot fts vtref)
    0 "TOTDEV" _ rfl
  obtain ⟨g1, d2⟩ := py_get_drop _ _ _ _ d1
  obtain ⟨e2, d3⟩ := expect_label_drop _ _ "CHAIN" _ d2
  obtain ⟨g2, d4⟩ := py_get_drop _ _ _ _ d3
  obtain ⟨e3, d5⟩ := expect_label_drop _ _ "DEV" _ d4
  obtain ⟨g3, d6⟩ := py_get_drop _ _ _ _ d5
  obtain ⟨e4, d7⟩ := expect_label_drop _ _ "SOC" _ d6
  obtain ⟨s1, d8⟩ := parse_fixed_values_drop _ _ CELL_COUNT parse_int_token "SOC"
    int_val? hpInt soc _ socv (by simpa [CELL_COUNT] using hsoclen)
    (by norm_num [CELL_COUNT]) hsoc d7
  obtain ⟨e5, d9⟩ := expect_label_drop _ _ "Vcell:" _ d8
  obtain ⟨s2, d10⟩ := parse_fixed_values_drop _ _ CELL_COUNT parse_float_token "Vcell"
    pyFloat? hpFloat vcell _ vcellv (by simpa [CELL_COUNT] using hvcelllen)
    (by norm_num [CELL_COUNT]) hvcell d9
  obtain ⟨e6, d11⟩ := expect_label_drop _ _ "TEMP:" _ d10
  obtain ⟨s3, d12⟩ := parse_fixed_values_drop _ _ CELL_COUNT parse_float_token "TEMP"
    pyFloat? hpFloat temp _ tempv (by simpa [CELL_COUNT] using htemplen)
    (by norm_num [CELL_COUNT]) htemp d11
  obtain ⟨e7, d13⟩ := expect_label_drop _ _ "BAL:" _ d12
  obtain ⟨s4, d14⟩ := parse_fixed_values_drop _ _ CELL_COUNT parse_int_token "BAL"
    int_val? hpInt bal _ balv (by simpa [CELL_COUNT] using hballen)
    (by norm_num [CELL_COUNT]) hbal d13
  obtain ⟨e8, d15⟩ := expect_label_drop _ _ "Curr:" _ d14
  obtain ⟨g4, d16⟩ := py_get_drop _ _ _ _ d15
  obtain ⟨e9, d17⟩ := expect_label_drop _ _ "totV:" _ d16
  obtain ⟨g5, d18⟩ := py_get_drop _ _ _ _ d17
  obtain ⟨e10, d19⟩ := expect_label_drop _ _ "Vref:" _ d18
  obtain ⟨g6, d20⟩ := py_get_drop _ _ _ _ d19
  obtain ⟨e11, d21⟩ := expect_label_drop _ _ "VUV:" _ d20
  obtain ⟨g7, d22⟩ := py_get_drop _ _ _ _ d21
  obtain ⟨e12, d23⟩ := expect_label_drop _ _ "VOV:" _ d22
  obtain ⟨g8, d24⟩ := py_get_drop _ _ _ _ d23
  obtain ⟨e13, d25⟩ := expect_label_drop _ _ "GPUT:" _ d24
  obtain ⟨g9, d26⟩ := py_get_drop _ _ _ _ d25
  obtain ⟨e14, d27⟩ := expect_label_drop _ _ "GPOT:" _ d26
  obtain ⟨g10, d28⟩ := py_get_drop _ _ _ _ d27
  obtain ⟨e15, d29⟩ := expect_label_drop _ _ "FAULTS:" _ d28
  obtain ⟨fl, d30⟩ := parse_faults_drop _ fts ftsv _ _ 0 d29 hftsne hfts
  obtain ⟨e16, d31⟩ := expect_label_drop _ _ "VTREF" _ d30
  obtain ⟨g11, _⟩ := py_get_drop _ _ _ _ d31
  unfold parse_frame_tokens
  simp only [e1, e2, e3, e4, e5, e6, e7, e8, e9, e10, e11, e12, e13, e14, e15, e16,
    g1, g2, g3, g4, g5, g6, g7, g8, g9, g10, g11, s1, s2, s3, s4, fl, exbind_ok,
    parse_int_token_of_int_val td "TOTDEV" tdv h1,
    parse_int_token_of_int_val ch "CHAIN" chv h2,
    parse_int_token_of_int_val dv "DEV" dvv h3,
    parse_float_token_of_some curr "Curr" currv hcurr,
    parse_float_token_of_some totv "totV" totvv htotv,
    parse_float_token_of_some vref "Vref" vrefv hvref,
    parse_float_token_of_some vuv "VUV" vuvv hvuv,
    parse_float_token_of_some vov "VOV" vovv hvov,
    parse_float_token_of_some gput "GPUT" gputv hgput,
    parse_float_token_of_some gpot "GPOT" gpotv hgpot,
    parse_float_token_of_some vtref "VTREF" vtv hvtref]
  rfl

/-! ## Helper lemmas: the frame splitter -/

theorem isPrefixList_length : ∀ (p l : List Char), isPrefixList p l = true → p.length ≤ l.length
  | [], _, _ => by simp
  | _ :: _, [], h => by simp [isPrefixList] at h
  | a :: as, b :: bs, h => by
    simp only [isPrefixList, Bool.and_eq_true, decide_eq_true_eq] at h
    have := isPrefixList_length as bs h.2
    simpa using this

theorem isPrefixList_eq : ∀ (p l : List Char), isPrefixList p l = true →
    l = p ++ l.drop p.length
  | [], l, _ => by simp
  | _ :: _, [], h => by simp [isPrefixList] at h
  | a :: as, b :: bs, h => by
    simp only [isPrefixList, Bool.and_eq_true, decide_eq_true_eq] at h
    have ih := isPrefixList_eq as bs h.2
    simp only [List.length_cons, List.drop_succ_cons, List.cons_append, h.1]
    exact congrArg _ ih

theorem isPrefixList_append : ∀ (p l t : List Char), isPrefixList p l = true →
    isPrefixList p (l ++ t) = true
  | [], _, _, _ => by simp [isPrefixList]
  | _ :: _, [], _, h => by simp [isPrefixList] at h
  | a :: as, b :: bs, t, h => by
    simp only [isPrefixList, Bool.and_eq_true, decide_eq_true_eq] at h ⊢
    exact ⟨h.1, isPrefixList_append as bs t h.2⟩

theorem isPrefixList_of_append : ∀ (p l t : List Char), isPrefixList p (l ++ t) = true →
    p.length ≤ l.length → isPrefixList p l = true
  | [], _, _, _, _ => by simp [isPrefixList]
  | a :: as, [], t, _, hlen => by simp at hlen
  | a :: as, b :: bs, t, h, hlen => by
    simp only [List.cons_append, isPrefixList, Bool.and_eq_true, decide_eq_true_eq] at h ⊢
    refine ⟨h.1, isPrefixList_of_append as bs t h.2 (by simpa using hlen)⟩

theorem splitOnceAux_eq (sep : List Char) : ∀ (cs pre post : List Char),
    splitOnceAux sep cs = some (pre, post) → cs = pre ++ sep ++ post := by
  intro cs
  induction cs with
  | nil => intro pre post h; simp [splitOnceAux] at h
  | cons c rest ih =>
    intro pre post h
    unfold splitOnceAux at h
    by_cases hp : isPrefixList sep (c :: rest) = true
    · rw [if_pos hp] at h
      simp only [Option.some.injEq, Prod.mk.injEq] at h
      obtain ⟨hpre, hpost⟩ := h
      subst hpre
      subst hpost
      simpa using isPrefixList_eq sep (c :: rest) hp
    · rw [if_neg hp] at h
      cases hs : splitOnceAux sep rest with
      | none => rw [hs] at h; exact Option.noConfusion h
      | some pq =>
        rw [hs] at h
        obtain ⟨p, q⟩ := pq
        simp only [Option.some.injEq, Prod.mk.injEq] at h
        obtain ⟨hpre, hpost⟩ := h
        subst hpre
        subst hpost
        simpa using ih p q hs

theorem splitOnceAux_append (sep : List Char) : ∀ (cs ds pre post : List Char),
    splitOnceAux sep cs = some (pre, post) →
    splitOnceAux sep (cs ++ ds) = some (pre, post ++ ds) := by
  intro cs
  induction cs with
  | nil => intro ds pre post h; simp [splitOnceAux] at h
  | cons c rest ih =>
    intro ds pre post h
    unfold splitOnceAux at h
    by_cases hp : isPrefixList sep (c :: rest) = true
    · rw [if_pos hp] at h
      simp only [Option.some.injEq, Prod.mk.injEq] at h
      obtain ⟨hpre, hpost⟩ := h
      subst hpre
      subst hpost
      have hp2 : isPrefixList sep (c :: (rest ++ ds)) = true := by
        simpa using isPrefixList_append sep (c :: rest) ds hp
      have hlen : sep.length ≤ (c :: rest).length := isPrefixList_length sep (c :: rest) hp
      have hdrop := @List.drop_append_of_le_length Char (c :: rest) ds sep.length hlen
      simp only [List.cons_append, splitOnceAux, List.append_eq]
      rw [if_pos hp2]
      simp only [List.cons_append] at hdrop
      rw [hdrop]
    · rw [if_neg hp] at h
      cases hs : splitOnceAux sep rest with
      | none => rw [hs] at h; exact Option.noConfusion h
      | some pq =>
        rw [hs] at h
        obtain ⟨p, q⟩ := pq
        simp only [Option.some.injEq, Prod.mk.injEq] at h
        obtain ⟨hpre, hpost⟩ := h
        subst hpre
        subst hpost
        have hlen : sep.length ≤ rest.length := by
          have h0 := splitOnceAux_eq sep rest p q hs
          have h1 := congrArg List.length h0
          simp at h1
          omega
        have hp2 : isPrefixList sep (c :: (rest ++ ds)) = false := by
          by_contra hc
          simp only [Bool.not_eq_false] at hc
          have : isPrefixList sep (c :: rest) = true :=
            isPrefixList_of_append sep (c :: rest) ds (by simpa using hc)
              (by simp; omega)
          exact hp this
        simp only [List.cons_append, splitOnceAux, List.append_eq]
        rw [if_neg (by simp [hp2])]
        rw [ih ds p q hs]

theorem strToList_append (s t : String) : (s ++ t).toList = s.toList ++ t.toList := by
  cases s
  cases t
  rfl

theorem strMk_append (a b : List Char) : (⟨a⟩ : String) ++ ⟨b⟩ = ⟨a ++ b⟩ := rfl

theorem str_append_assoc (a b c : String) : a ++ b ++ c = a ++ (b ++ c) := by
  cases a with
  | mk la =>
    cases b with
    | mk lb =>
      cases c with
      | mk lc =>
        rw [strMk_append, strMk_append, strMk_append, strMk_append]
        exact congrArg String.mk (List.append_assoc la lb lc)

theorem str_append_empty (s : String) : s ++ "" = s := by
  cases s with
  | mk l =>
    show (⟨l⟩ : String) ++ ⟨[]⟩ = ⟨l⟩
    rw [strMk_append]
    exact congrArg String.mk (List.append_nil l)

theorem stripCRLF_empty : stripCRLF "" = "" := rfl

theorem stripCRLF_append (a b : String) : stripCRLF (a ++ b) = stripCRLF a ++ stripCRLF b := by
  unfold stripCRLF
  rw [strMk_append]
  exact congrArg String.mk (List.filter_append a.data b.data)

theorem py_split_once_parts (s a b : String)
    (h : py_split_once s FRAME_END_MARKER = some (a, b)) :
    s.toList = a.toList ++ FRAME_END_MARKER.toList ++ b.toList := by
  unfold py_split_once at h
  cases hs : splitOnceAux FRAME_END_MARKER.toList s.toList with
  | none => rw [hs] at h; exact Option.noConfusion h
  | some pq =>
    rw [hs] at h
    obtain ⟨p, q⟩ := pq
    simp only [Option.some.injEq, Prod.mk.injEq] at h
    obtain ⟨ha, hb⟩ := h
    subst ha
    subst hb
    exact splitOnceAux_eq _ _ _ _ hs

theorem py_split_once_length (s a b : String)
    (h : py_split_once s FRAME_END_MARKER = some (a, b)) : b.length < s.length := by
  have hp := congrArg List.length (py_split_once_parts s a b h)
  simp only [List.length_append] at hp
  have hm : FRAME_END_MARKER.toList.length = 7 := rfl
  show b.toList.length < s.toList.length
  omega

theorem py_split_once_append (s t a b : String)
    (h : py_split_once s FRAME_END_MARKER = some (a, b)) :
    py_split_once (s ++ t) FRAME_END_MARKER = some (a, b ++ t) := by
  unfold py_split_once at h ⊢
  cases hs : splitOnceAux FRAME_END_MARKER.toList s.toList with
  | none => rw [hs] at h; exact Option.noConfusion h
  | some pq =>
    rw [hs] at h
    obtain ⟨p, q⟩ := pq
    simp only [Option.some.injEq, Prod.mk.injEq] at h
    obtain ⟨ha, hb⟩ := h
    subst ha
    subst hb
    rw [strToList_append, splitOnceAux_append _ _ _ _ _ hs]
    cases t with
    | mk lt => rfl

theorem py_split_once_none_of_short (b : String) (h : b.length = 0) :
    py_split_once b FRAME_END_MARKER = none := by
  have hb : b.toList = [] := List.length_eq_zero.mp h
  unfold py_split_once
  rw [hb]
  rfl

theorem drain_fuel_congr : ∀ (f1 f2 : Nat) (b : String), b.length ≤ f1 → b.length ≤ f2 →
    drain_fuel f1 b = drain_fuel f2 b := by
  intro f1
  induction f1 with
  | zero =>
    intro f2 b h1 _
    have hz : py_split_once b FRAME_END_MARKER = none :=
      py_split_once_none_of_short b (by omega)
    cases f2 with
    | zero => rfl
    | succ m => simp [drain_fuel, hz]
  | succ m ih =>
    intro f2 b h1 h2
    cases f2 with
    | zero =>
      have hz : py_split_once b FRAME_END_MARKER = none :=
        py_split_once_none_of_short b (by omega)
      simp [drain_fuel, hz]
    | succ k =>
      cases hs : py_split_once b FRAME_END_MARKER with
      | none => simp [drain_fuel, hs]
      | some xy =>
        obtain ⟨x, y⟩ := xy
        have hlen := py_split_once_length b x y hs
        simp only [drain_fuel, hs]
        rw [ih k y (by omega) (by omega)]

theorem drain_buffer_none (b : String) (h : py_split_once b FRAME_END_MARKER = none) :
    drain_buffer b = ([], b) := by
  unfold drain_buffer
  cases hl : b.length with
  | zero => rfl
  | succ m => simp [drain_fuel, h]

theorem drain_buffer_some (b x y : String)
    (h : py_split_once b FRAME_END_MARKER = some (x, y)) :
    drain_buffer b =
      ((if pyStrip x = "" then (drain_buffer y).1 else pyStrip x :: (drain_buffer y).1),
        (drain_buffer y).2) := by
  have hlen := py_split_once_length b x y h
  unfold drain_buffer
  cases hl : b.length with
  | zero => omega
  | succ m =>
    simp only [drain_fuel, h]
    rw [drain_fuel_congr m y.length y (by omega) (by omega)]

theorem drain_final_none_bound (n : Nat) : ∀ (b : String), b.length ≤ n →
    py_split_once (drain_buffer b).2 FRAME_END_MARKER = none := by
  induction n with
  | zero =>
    intro b hb
    have h := py_split_once_none_of_short b (by omega)
    rw [drain_buffer_none b h]
    exact h
  | succ m ih =>
    intro b hb
    cases hs : py_split_once b FRAME_END_MARKER with
    | none => rw [drain_buffer_none b hs]; exact hs
    | some xy =>
      obtain ⟨x, y⟩ := xy
      have hlen := py_split_once_length b x y hs
      rw [drain_buffer_some b x y hs]
      exact ih y (by omega)

theorem drain_buffer_final (b : String) :
    py_split_once (drain_buffer b).2 FRAME_END_MARKER = none :=
  drain_final_none_bound b.length b (le_refl _)

theorem drain_append_bound (n : Nat) : ∀ (s t : String), s.length ≤ n →
    drain_buffer (s ++ t) =
      ((drain_buffer s).1 ++ (drain_buffer ((drain_buffer s).2 ++ t)).1,
        (drain_buffer ((drain_buffer s).2 ++ t)).2) := by
  induction n with
  | zero =>
    intro s t hs
    have h := py_split_once_none_of_short s (by omega)
    rw [drain_buffer_none s h]
    simp
  | succ m ih =>
    intro s t hs
    cases hq : py_split_once s FRAME_END_MARKER with
    | none =>
      rw [drain_buffer_none s hq]
      simp
    | some xy =>
      obtain ⟨x, y⟩ := xy
      have hlen := py_split_once_length s x y hq
      have happ := py_split_once_append s t x y hq
      rw [drain_buffer_some s x y hq, drain_buffer_some (s ++ t) x (y ++ t) happ,
        ih y t (by omega)]
      by_cases hx : pyStrip x = "" <;> simp [hx]

theorem drain_append (s t : String) :
    drain_buffer (s ++ t) =
      ((drain_buffer s).1 ++ (drain_buffer ((drain_buffer s).2 ++ t)).1,
        (drain_buffer ((drain_buffer s).2 ++ t)).2) :=
  drain_append_bound s.length s t (le_refl _)

/-- Chunked draining from a marker-free buffer equals draining the whole
remaining text at once. -/
theorem iter_chunks_tf_eq (chunks : List String) : ∀ (b : String),
    py_split_once b FRAME_END_MARKER = none →
    (iter_chunks_tf chunks b).1 = (drain_buffer (b ++ stripCRLF (concatChunks chunks))).1 := by
  induction chunks with
  | nil =>
    intro b hb
    show ([] : List String) = _
    rw [show concatChunks [] = "" from rfl, stripCRLF_empty, str_append_empty,
      drain_buffer_none b hb]
  | cons c rest ih =>
    intro b hb
    have hfin := drain_buffer_final (b ++ stripCRLF c)
    have hih := ih (drain_buffer (b ++ stripCRLF c)).2 hfin
    have hunfold : (iter_chunks_tf (c :: rest) b).1
        = (drain_buffer (b ++ stripCRLF c)).1
          ++ (iter_chunks_tf rest (drain_buffer (b ++ stripCRLF c)).2).1 := rfl
    rw [hunfold, hih,
      show concatChunks (c :: rest) = c ++ concatChunks rest from rfl,
      stripCRLF_append, ← str_append_assoc,
      drain_append (b ++ stripCRLF c) (stripCRLF (concatChunks rest))]

/-- Appending one more chunk that completes no marker changes nothing in
the text-file frame source. -/
theorem iter_chunks_tf_trailing (chunks : List String) : ∀ (b extra : String),
    py_split_once ((iter_chunks_tf chunks b).2 ++ stripCRLF extra) FRAME_END_MARKER = none →
    (iter_chunks_tf (chunks ++ [extra]) b).1 = (iter_chunks_tf chunks b).1 := by
  induction chunks with
  | nil =>
    intro b extra h
    have h2 : (iter_chunks_tf [] b).2 = b := rfl
    rw [h2] at h
    have hd := drain_buffer_none _ h
    show (drain_buffer (b ++ stripCRLF extra)).1
        ++ (iter_chunks_tf [] (drain_buffer (b ++ stripCRLF extra)).2).1 = []
    rw [hd]
    rfl
  | cons c rest ih =>
    intro b extra h
    have hstep : ∀ (l : List String), (iter_chunks_tf (c :: l) b).1
        = (drain_buffer (b ++ stripCRLF c)).1
          ++ (iter_chunks_tf l (drain_buffer (b ++ stripCRLF c)).2).1 := fun _ => rfl
    have hstep2 : (iter_chunks_tf (c :: rest) b).2
        = (iter_chunks_tf rest (drain_buffer (b ++ stripCRLF c)).2).2 := rfl
    rw [show (c :: rest) ++ [extra] = c :: (rest ++ [extra]) from rfl, hstep, hstep]
    rw [hstep2] at h
    rw [ih _ extra h]

/-- The serial inner loop is inert on a marker-free buffer. -/
theorem serial_drain_none (maxf : Option Nat) (b : String) (c : Nat)
    (h : py_split_once b FRAME_END_MARKER = none) :
    serial_drain maxf b c = ([], b, c) := by
  unfold serial_drain
  cases b.length with
  | zero => rfl
  | succ m => simp [serial_drain_fuel, h]

/-- Appending one more chunk that completes no marker changes nothing in
the serial frame source either. -/
theorem iter_serial_trailing (maxf : Option Nat) (chunks : List String) :
    ∀ (b : String) (cap : Nat) (extra : String),
      py_split_once (stripCRLF ((iter_serial maxf chunks b cap).2.1 ++ extra))
        FRAME_END_MARKER = none →
      (iter_serial maxf (chunks ++ [extra]) b cap).1 = (iter_serial maxf chunks b cap).1 := by
  induction chunks with
  | nil =>
    intro b cap extra h
    have h2 : (iter_serial maxf [] b cap).2.1 = b := rfl
    rw [h2] at h
    by_cases hst : stopAt maxf cap = true
    · simp [iter_serial, hst]
    · have hd := serial_drain_none maxf _ cap h
      simp [iter_serial, hst, hd]
  | cons c rest ih =>
    intro b cap extra h
    by_cases hst : stopAt maxf cap = true
    · simp [iter_serial, hst]
    · have hcons : ∀ (l : List String), iter_serial maxf (c :: l) b cap
          = if stopAt maxf cap then ([], b, cap) else
            ((serial_drain maxf (stripCRLF (b ++ c)) cap).1
              ++ (iter_serial maxf l (serial_drain maxf (stripCRLF (b ++ c)) cap).2.1
                    (serial_drain maxf (stripCRLF (b ++ c)) cap).2.2).1,
              (iter_serial maxf l (serial_drain maxf (stripCRLF (b ++ c)) cap).2.1
                    (serial_drain maxf (stripCRLF (b ++ c)) cap).2.2).2) := fun _ => rfl
      rw [show (c :: rest) ++ [extra] = c :: (rest ++ [extra]) by simp, hcons (rest ++ [extra]),
        hcons rest, if_neg hst, if_neg hst]
      rw [hcons rest, if_neg hst] at h
      rw [ih _ _ extra h]

theorem exbind_err {ε α β : Type} (e : ε) (f : α → Except ε β) :
    (Except.error e >>= f : Except ε β) = .error e := rfl

/-- Under the lenient policy, a completed run counts exactly the frames
that parse successfully. -/
theorem stream_go_count (frames : List String) : ∀ (idx p s m pc sk mf : Nat),
    stream_go false frames idx p s m = .ok (pc, sk, mf) →
    pc = p + (frames.filter (fun f => (parse_raw_frame f).toBool)).length := by
  induction frames with
  | nil =>
    intro idx p s m pc sk mf h
    simp [stream_go] at h
    simp [h.1.symm]
  | cons f rest ih =>
    intro idx p s m pc sk mf h
    unfold stream_go at h
    cases hp : parse_raw_frame f with
    | ok fr =>
      rw [hp] at h
      have hcount := ih (idx + 1) (p + 1) s (max m fr.fault_values.length) pc sk mf h
      have hb : (parse_raw_frame f).toBool = true := by rw [hp]; rfl
      simp [List.filter_cons, hb]
      omega
    | error e =>
      rw [hp] at h
      cases e with
      | frameParseError msg =>
        simp only [Bool.false_eq_true, if_false] at h
        have hcount := ih (idx + 1) p (s + 1) m pc sk mf h
        have hb : (parse_raw_frame f).toBool = false := by rw [hp]; rfl
        simp [List.filter_cons, hb]
        omega
      | indexError => exact Except.noConfusion h

theorem get?_drop_cons {α : Type} (l : List α) (n : Nat) (c : α) (h : l.get? n = some c) :
    l.drop n = c :: l.drop (n + 1) := by
  obtain ⟨hlt, hget⟩ := List.get?_eq_some.mp h
  rw [List.drop_eq_get_cons hlt, hget]

theorem str_empty_append (s : String) : "" ++ s = s := by
  cases s with
  | mk l =>
    show (⟨[]⟩ : String) ++ ⟨l⟩ = ⟨l⟩
    rw [strMk_append]
    rfl

/-! ## The claims -/

/-- C1: the claim says every failure of `parse_raw_frame` is a
`FrameParseError`.  The code contradicts it: a frame that ends
immediately after a matched label (here the single token `TOTDEV`) makes
the unchecked `tokens[index]` value subscript raise an `IndexError`,
which no handler catches; a wrong first token or an empty frame, by
contrast, do produce `FrameParseError` values as claimed. -/
theorem C1_index_error_escape :
    parse_raw_frame "TOTDEV" = Except.error PyErr.indexError ∧
    parse_raw_frame "BOGUS" =
      Except.error (PyErr.frameParseError
        ("Expected label " ++ pyRepr "TOTDEV" ++ " at token 0, found " ++ pyRepr "BOGUS")) ∧
    parse_raw_frame "" =
      Except.error (PyErr.frameParseError
        ("Expected label " ++ pyRepr "TOTDEV" ++ ", but frame ended early")) :=
  ⟨by decide, by decide, by decide⟩

/-- C3: for every partition of the input text into non-empty chunks the
streaming splitter yields the same frames as splitting the whole text at
once (the stripped non-empty pieces before each marker occurrence, in
order). -/
theorem C3_splitter_chunk_equivalence (chunks : List String) (text : String)
    (hjoin : concatChunks chunks = text) (hne : ∀ c, c ∈ chunks → c ≠ "") :
    iter_frames_from_text_file chunks = frames_of_text text := by
  subst hjoin
  unfold iter_frames_from_text_file frames_of_text
  rw [iter_chunks_tf_eq chunks "" (by decide), str_empty_append]

/-- Witness for C3 on a three-chunk partition that splits one marker
across chunk boundaries. -/
theorem C3_splitter_chunk_equivalence_witness :
    iter_frames_from_text_file ["a;1END", "Data\r\n x ENDD", "ata tail"] =
      frames_of_text "a;1ENDData\r\n x ENDData tail" ∧
    iter_frames_from_text_file ["a;1END", "Data\r\n x ENDD", "ata tail"] = ["a;1", "x"] :=
  ⟨C3_splitter_chunk_equivalence _ _ (by decide) (by decide), by decide⟩

/-- C4: the FAULTS section consumes integer tokens greedily until the
literal token `VTREF`, with no fixed count: it stops at once when
`VTREF` is the next token (so a well-formed frame whose `FAULTS:` label
is immediately followed by `VTREF` yields an empty fault_values, as the
closed full-frame conjunct shows). -/
theorem C4_faults_greedy (tokens : List String) (index n : Nat) :
    (tokens.get? index = some "VTREF" → parse_faults tokens index n = .ok ([], index)) ∧
    (∀ (fts rest : List String) (vals : List Int),
      tokens.drop index = fts ++ "VTREF" :: rest →
      (∀ t, t ∈ fts → t ≠ "VTREF") →
      optMapList int_val? fts = some vals →
      parse_faults tokens index n = .ok (vals, index + fts.length)) ∧
    Except.map ParsedFrame.fault_values (parse_raw_frame
        ("TOTDEV;1;CHAIN;2;DEV;3;SOC;1;2;3;4;5;6;7;8;9;10;11;12;13;14;" ++
          "Vcell:;3.1;3.1;3.1;3.1;3.1;3.1;3.1;3.1;3.1;3.1;3.1;3.1;3.1;3.1;" ++
          "TEMP:;25;25;25;25;25;25;25;25;25;25;25;25;25;25;" ++
          "BAL:;0;0;0;0;0;0;0;0;0;0;0;0;0;0;" ++
          "Curr:;0.5;totV:;56.0;Vref:;3.3;VUV:;2.5;VOV:;4.2;GPUT:;10;GPOT:;60;" ++
          "FAULTS:;VTREF;1.5"))
      = Except.ok [] := by
  refine ⟨?_, ?_, by decide⟩
  · intro h
    have hd : tokens.drop index = ([] : List String) ++ "VTREF" :: tokens.drop (index + 1) :=
      by simpa using get?_drop_cons tokens index "VTREF" h
    have := (parse_faults_drop tokens [] [] (tokens.drop (index + 1)) index n hd
      (by intro t ht; exact absurd ht (List.not_mem_nil t)) rfl).1
    simpa using this
  · intro fts rest vals hd hne hv
    exact (parse_faults_drop tokens fts vals rest index n hd hne hv).1

/-- Witness for C4: an empty FAULTS bank stops at once, a two-value bank
consumes exactly the two integers before VTREF. -/
theorem C4_faults_greedy_witness :
    parse_faults ["FAULTS:", "VTREF", "1.5"] 1 0 = Except.ok ([], 1) ∧
    parse_faults ["FAULTS:", "7", "8", "VTREF", "1.5"] 1 0 = Except.ok ([7, 8], 1 + 2) := by
  constructor
  · exact (C4_faults_greedy _ 1 0).1 (by decide)
  · exact (C4_faults_greedy _ 1 0).2.1 ["7", "8"] ["1.5"] [7, 8] (by decide) (by decide)
      (by decide)

/-- C9: parsing is a pure function (equal raw frames parse equally), and
on every raw frame whose token sequence follows the grammar the parsed
record holds exactly the per-token values of each section in encounter
order (the i-th element of each ordered sequence field comes from the
i-th token of its section). -/
theorem C9_deterministic_order (raw : String)
    (td ch dv curr totv vref vuv vov gput gpot vtref : String)
    (soc vcell temp bal fts : List String)
    (tdv chv dvv : Int) (socv : List Int) (vcellv tempv : List PyFloat) (balv : List Int)
    (currv totvv vrefv vuvv vovv gputv gpotv vtv : PyFloat) (ftsv : List Int)
    (htok : tokenize_frame raw = mk_frame_tokens td ch dv soc vcell temp bal curr totv vref
      vuv vov gput gpot fts vtref)
    (h1 : int_val? td = some tdv) (h2 : int_val? ch = some chv) (h3 : int_val? dv = some dvv)
    (hsoc : optMapList int_val? soc = some socv) (hsoclen : soc.length = 14)
    (hvcell : optMapList pyFloat? vcell = some vcellv) (hvcelllen : vcell.length = 14)
    (htemp : optMapList pyFloat? temp = some tempv) (htemplen : temp.length = 14)
    (hbal : optMapList int_val? bal = some balv) (hballen : bal.length = 14)
    (hcurr : pyFloat? curr = some currv) (htotv : pyFloat? totv = some totvv)
    (hvref : pyFloat? vref = some vrefv) (hvuv : pyFloat? vuv = some vuvv)
    (hvov : pyFloat? vov = some vovv) (hgput : pyFloat? gput = some gputv)
    (hgpot : pyFloat? gpot = some gpotv)
    (hfts : optMapList int_val? fts = some ftsv) (hftsne : ∀ t, t ∈ fts → t ≠ "VTREF")
    (hvtref : pyFloat? vtref = some vtv) :
    (∀ r1 r2 : String, r1 = r2 → parse_raw_frame r1 = parse_raw_frame r2) ∧
    parse_raw_frame raw = Except.ok {
      total_devices := tdv
      chain_id := chv
      device_id := dvv
      soc_values := socv
      vcell_values := vcellv
      temp_values := tempv
      bal_values := balv
      current_a := currv
      pack_voltage_v := totvv
      vref_v := vrefv
      vuv_threshold_v := vuvv
      vov_threshold_v := vovv
      gput_threshold_v := gputv
      gpot_threshold_v := gpotv
      fault_values := ftsv
      vtref_v := vtv } := by
  refine ⟨fun r1 r2 h => by rw [h], ?_⟩
  unfold parse_raw_frame
  rw [htok]
  exact parse_frame_tokens_complete td ch dv curr totv vref vuv vov gput gpot vtref
    soc vcell temp bal fts tdv chv dvv socv vcellv tempv balv currv totvv vrefv vuvv vovv
    gputv gpotv vtv ftsv h1 h2 h3 hsoc hsoclen hvcell hvcelllen htemp htemplen hbal hballen
    hcurr htotv hvref hvuv hvov hgput hgpot hfts hftsne hvtref

/-- Witness for C9: a fully populated concrete frame parses to the
record holding each section in input order. -/
theorem C9_deterministic_order_witness :
    parse_raw_frame
        ("TOTDEV;1;CHAIN;2;DEV;3;SOC;1;2;3;4;5;6;7;8;9;10;11;12;13;14;" ++
          "Vcell:;3.1;3.1;3.1;3.1;3.1;3.1;3.1;3.1;3.1;3.1;3.1;3.1;3.1;3.1;" ++
          "TEMP:;25;25;25;25;25;25;25;25;25;25;25;25;25;25;" ++
          "BAL:;0;0;0;0;0;0;0;0;0;0;0;0;0;0;" ++
          "Curr:;0.5;totV:;56.0;Vref:;3.3;VUV:;2.5;VOV:;4.2;GPUT:;10;GPOT:;60;" ++
          "FAULTS:;0;1;VTREF;1.5")
      = Except.ok {
        total_devices := 1
        chain_id := 2
        device_id := 3
        soc_values := [1, 2, 3, 4, 5, 6, 7, 8, 9, 10, 11, 12, 13, 14]
        vcell_values := List.replicate 14 (PyFloat.finite (mkRat 31 10))
        temp_values := List.replicate 14 (PyFloat.finite 25)
        bal_values := List.replicate 14 0
        current_a := PyFloat.finite (mkRat 1 2)
        pack_voltage_v := PyFloat.finite 56
        vref_v := PyFloat.finite (mkRat 33 10)
        vuv_threshold_v := PyFloat.finite (mkRat 5 2)
        vov_threshold_v := PyFloat.finite (mkRat 21 5)
        gput_threshold_v := PyFloat.finite 10
        gpot_threshold_v := PyFloat.finite 60
        fault_values := [0, 1]
        vtref_v := PyFloat.finite (mkRat 3 2) } :=
  (C9_deterministic_order _ "1" "2" "3" "0.5" "56.0" "3.3" "2.5" "4.2" "10" "60" "1.5"
    ["1", "2", "3", "4", "5", "6", "7", "8", "9", "10", "11", "12", "13", "14"]
    (List.replicate 14 "3.1") (List.replicate 14 "25") (List.replicate 14 "0") ["0", "1"]
    1 2 3 [1, 2, 3, 4, 5, 6, 7, 8, 9, 10, 11, 12, 13, 14]
    (List.replicate 14 (PyFloat.finite (mkRat 31 10))) (List.replicate 14 (PyFloat.finite 25))
    (List.replicate 14 0) (PyFloat.finite (mkRat 1 2)) (PyFloat.finite 56)
    (PyFloat.finite (mkRat 33 10)) (PyFloat.finite (mkRat 5 2)) (PyFloat.finite (mkRat 21 5))
    (PyFloat.finite 10) (PyFloat.finite 60) (PyFloat.finite (mkRat 3 2)) [0, 1]
    (by decide) (by decide) (by decide) (by decide) (by decide) (by decide) (by decide)
    (by decide) (by decide) (by decide) (by decide) (by decide) (by decide) (by decide)
    (by decide) (by decide) (by decide) (by decide) (by decide) (by decide) (by decide)
    (by decide)).2

/-- C5: a token sequence whose SOC section holds only 10 of the required
14 values (the frame ending there) fails with a FrameParseError whose
message names the SOC section and the required count 14. -/
theorem C5_soc_truncation (a b c : String) (av bv cv : Int) (socToks : List String)
    (ha : int_val? a = some av) (hb : int_val? b = some bv) (hc : int_val? c = some cv)
    (hlen : socToks.length = 10) :
    parse_frame_tokens (["TOTDEV", a, "CHAIN", b, "DEV", c, "SOC"] ++ socToks) =
      Except.error (PyErr.frameParseError
        ("Section " ++ pyRepr "SOC" ++ " is truncated: expected " ++
          toString CELL_COUNT ++ " values")) ∧
    "SOC".toList <:+: ("Section " ++ pyRepr "SOC" ++ " is truncated: expected " ++
      toString CELL_COUNT ++ " values").toList ∧
    "14".toList <:+: ("Section " ++ pyRepr "SOC" ++ " is truncated: expected " ++
      toString CELL_COUNT ++ " values").toList := by
  refine ⟨?_, by decide, by decide⟩
  obtain ⟨e1, d1⟩ := expect_label_drop (["TOTDEV", a, "CHAIN", b, "DEV", c, "SOC"] ++ socToks)
    0 "TOTDEV" _ rfl
  obtain ⟨g1, d2⟩ := py_get_drop _ _ _ _ d1
  obtain ⟨e2, d3⟩ := expect_label_drop _ _ "CHAIN" _ d2
  obtain ⟨g2, d4⟩ := py_get_drop _ _ _ _ d3
  obtain ⟨e3, d5⟩ := expect_label_drop _ _ "DEV" _ d4
  obtain ⟨g3, d6⟩ := py_get_drop _ _ _ _ d5
  obtain ⟨e4, _⟩ := expect_label_drop _ _ "SOC" _ d6
  have hlength : (["TOTDEV", a, "CHAIN", b, "DEV", c, "SOC"] ++ socToks).length = 17 := by
    simp [hlen]
  have herr : parse_fixed_values (["TOTDEV", a, "CHAIN", b, "DEV", c, "SOC"] ++ socToks)
      (0 + 1 + 1 + 1 + 1 + 1 + 1 + 1) CELL_COUNT parse_int_token "SOC" =
      Except.error (PyErr.frameParseError
        ("Section " ++ pyRepr "SOC" ++ " is truncated: expected " ++
          toString CELL_COUNT ++ " values")) := by
    unfold parse_fixed_values
    rw [if_pos (by rw [hlength]; norm_num [CELL_COUNT])]
  unfold parse_frame_tokens
  simp only [e1, e2, e3, e4, g1, g2, g3, exbind_ok, exbind_err, herr,
    parse_int_token_of_int_val a "TOTDEV" av ha,
    parse_int_token_of_int_val b "CHAIN" bv hb,
    parse_int_token_of_int_val c "DEV" cv hc]

/-- Witness for C5 on a concrete truncated frame. -/
theorem C5_soc_truncation_witness :
    parse_frame_tokens (["TOTDEV", "1", "CHAIN", "2", "DEV", "3", "SOC"] ++
        ["1", "2", "3", "4", "5", "6", "7", "8", "9", "10"]) =
      Except.error (PyErr.frameParseError
        ("Section " ++ pyRepr "SOC" ++ " is truncated: expected " ++
          toString CELL_COUNT ++ " values")) :=
  (C5_soc_truncation "1" "2" "3" 1 2 3 ["1", "2", "3", "4", "5", "6", "7", "8", "9", "10"]
    (by decide) (by decide) (by decide) (by decide)).1

/-- C6: the fault column namer returns exactly `fault_count` names where
the i-th name is `fault_` plus the zero-padded 1-based index, with the
prefix-stripped candidate name appended when a candidate exists. -/
theorem C6_fault_column_names (n : Nat) (names : List String) :
    (build_fault_column_names n names).length = n ∧
    (∀ i, i < n → (build_fault_column_names n names).get? i = some
      (match names.get? i with
        | some nm => "fault_" ++ pad3 (i + 1) ++ "_" ++ strip_pref nm "AEK_POW_BMS63CHAIN_"
        | none => "fault_" ++ pad3 (i + 1))) ∧
    build_fault_column_names 3 ["OverTemp", "UnderVolt"] =
      ["fault_001_OverTemp", "fault_002_UnderVolt", "fault_003"] := by
  refine ⟨by simp [build_fault_column_names], ?_, by decide⟩
  intro i hi
  unfold build_fault_column_names
  rw [List.get?_map, List.get?_range hi]
  rfl

/-- Witness for C6 at the spec example (count 3, two candidate names). -/
theorem C6_fault_column_names_witness :
    build_fault_column_names 3 ["OverTemp", "UnderVolt"] =
      ["fault_001_OverTemp", "fault_002_UnderVolt", "fault_003"] ∧
    (build_fault_column_names 3 ["OverTemp", "UnderVolt"]).get? 2 = some "fault_003" := by
  refine ⟨(C6_fault_column_names 3 ["OverTemp", "UnderVolt"]).2.2, ?_⟩
  exact ((C6_fault_column_names 3 ["OverTemp", "UnderVolt"]).2.1 2 (by decide)).trans (by decide)

/-- C7: the row written for a parsed frame has exactly the header width
(68 fixed cells plus one per configured fault column); longer fault
banks are truncated to the configured columns and shorter ones padded
with empty-string cells. -/
theorem C7_row_width (cols : List String) (i : Nat) (f : ParsedFrame)
    (h1 : f.soc_values.length = 14) (h2 : f.vcell_values.length = 14)
    (h3 : f.temp_values.length = 14) (h4 : f.bal_values.length = 14) :
    (write_frame_row cols i f).length = (csv_headers cols).length ∧
    (csv_headers cols).length = 68 + cols.length ∧
    (cols.length ≤ f.fault_values.length →
      write_frame_row cols i f =
        write_frame_row cols i { f with fault_values := f.fault_values.take cols.length }) ∧
    (f.fault_values.length < cols.length →
      write_frame_row cols i f =
        [Cell.int i, Cell.int f.total_devices, Cell.int f.chain_id, Cell.int f.device_id]
          ++ f.soc_values.map Cell.int ++ f.vcell_values.map Cell.float
          ++ f.temp_values.map Cell.float ++ f.bal_values.map Cell.int
          ++ [Cell.float f.current_a, Cell.float f.pack_voltage_v, Cell.float f.vref_v,
              Cell.float f.vuv_threshold_v, Cell.float f.vov_threshold_v,
              Cell.float f.gput_threshold_v, Cell.float f.gpot_threshold_v]
          ++ f.fault_values.map Cell.int
          ++ List.replicate (cols.length - f.fault_values.length) (Cell.str "")
          ++ [Cell.float f.vtref_v]) := by
  have hhead : (csv_headers cols).length = 68 + cols.length := by
    simp [csv_headers, CELL_COUNT]
    omega
  refine ⟨?_, hhead, ?_, ?_⟩
  · rw [hhead]
    simp only [write_frame_row]
    split_ifs <;> (simp [h1, h2, h3, h4, List.length_take]; omega)
  · intro hle
    by_cases hlt : cols.length < f.fault_values.length
    · have htl : (f.fault_values.take cols.length).length = cols.length := by
        rw [List.length_take]
        omega
      simp [write_frame_row, hlt, htl]
    · have hceq : cols.length = f.fault_values.length := by omega
      have htk : f.fault_values.take cols.length = f.fault_values := by
        rw [hceq]
        exact List.take_length _
      rw [htk]
  · intro hlt
    have hnot : ¬(cols.length < f.fault_values.length) := by omega
    simp [write_frame_row, hnot, hlt, List.append_assoc]

/-- Witness for C7 on a frame with one fault value and three configured
fault columns (the two missing cells are padded). -/
theorem C7_row_width_witness :
    (write_frame_row ["f1", "f2", "f3"] 1
        { total_devices := 1
          chain_id := 2
          device_id := 3
          soc_values := List.replicate 14 0
          vcell_values := List.replicate 14 (PyFloat.finite 4)
          temp_values := List.replicate 14 (PyFloat.finite 25)
          bal_values := List.replicate 14 1
          current_a := PyFloat.finite 1
          pack_voltage_v := PyFloat.finite 56
          vref_v := PyFloat.finite 3
          vuv_threshold_v := PyFloat.finite 2
          vov_threshold_v := PyFloat.finite 4
          gput_threshold_v := PyFloat.finite 10
          gpot_threshold_v := PyFloat.finite 60
          fault_values := [5]
          vtref_v := PyFloat.finite 1 }).length
      = (csv_headers ["f1", "f2", "f3"]).length :=
  (C7_row_width ["f1", "f2", "f3"] 1 _ (by decide) (by decide) (by decide) (by decide)).1

/-- C8: a normally completed lenient run parses exactly the frames that
`parse_raw_frame` accepts, and the exit decision of `main` is 0 exactly
when at least one frame parsed; an empty result exits with code 1. -/
theorem C8_exit_code (frames : List String) (pc sk mf : Nat)
    (h : stream_frames_to_csv frames false = Except.ok (pc, sk, mf)) :
    pc = (frames.filter (fun f => (parse_raw_frame f).toBool)).length ∧
    (main_exit_code pc = 0 ↔ 1 ≤ pc) ∧
    (pc = 0 → main_exit_code pc = 1) := by
  refine ⟨?_, ?_, ?_⟩
  · have := stream_go_count frames 1 0 0 0 pc sk mf h
    simpa using this
  · unfold main_exit_code
    by_cases hz : pc = 0
    · simp [hz]
    · simp [hz]
      omega
  · intro hz
    simp [main_exit_code, hz]

/-- Witness for C8 on one good frame plus one malformed frame. -/
theorem C8_exit_code_witness :
    1 = (([("TOTDEV;1;CHAIN;2;DEV;3;SOC;1;2;3;4;5;6;7;8;9;10;11;12;13;14;" ++
          "Vcell:;3.1;3.1;3.1;3.1;3.1;3.1;3.1;3.1;3.1;3.1;3.1;3.1;3.1;3.1;" ++
          "TEMP:;25;25;25;25;25;25;25;25;25;25;25;25;25;25;" ++
          "BAL:;0;0;0;0;0;0;0;0;0;0;0;0;0;0;" ++
          "Curr:;0.5;totV:;56.0;Vref:;3.3;VUV:;2.5;VOV:;4.2;GPUT:;10;GPOT:;60;" ++
          "FAULTS:;0;1;VTREF;1.5"), "junk"]).filter
        (fun f => (parse_raw_frame f).toBool)).length ∧
    (main_exit_code 1 = 0 ↔ 1 ≤ 1) ∧
    (1 = 0 → main_exit_code 1 = 1) :=
  C8_exit_code _ 1 1 2 (by decide)

/-- C10: text standing after the last marker occurrence is silently
discarded by both frame sources: a final chunk that completes no marker
leaves the yielded frame list of both the file-replay source and the
serial source unchanged (it is never yielded, so never parsed). -/
theorem C10_trailing_discarded (chunks : List String) (extra : String) :
    (py_split_once ((iter_chunks_tf chunks "").2 ++ stripCRLF extra) FRAME_END_MARKER = none →
      iter_frames_from_text_file (chunks ++ [extra]) = iter_frames_from_text_file chunks) ∧
    (∀ maxf : Option Nat,
      py_split_once (stripCRLF ((iter_serial maxf chunks "" 0).2.1 ++ extra))
          FRAME_END_MARKER = none →
      iter_frames_from_serial maxf (chunks ++ [extra]) = iter_frames_from_serial maxf chunks) := by
  constructor
  · intro h
    unfold iter_frames_from_text_file
    exact iter_chunks_tf_trailing chunks "" extra h
  · intro maxf h
    unfold iter_frames_from_serial
    exact iter_serial_trailing maxf chunks "" 0 extra h

/-- Witness for C10: a trailing partial frame after the last marker is
dropped by both sources. -/
theorem C10_trailing_discarded_witness :
    iter_frames_from_text_file (["aENDData"] ++ ["trail;TOTDEV;9"]) =
      iter_frames_from_text_file ["aENDData"] ∧
    iter_frames_from_serial (some 5) (["aENDData"] ++ ["trail;TOTDEV;9"]) =
      iter_frames_from_serial (some 5) ["aENDData"] ∧
    iter_frames_from_text_file ["aENDData", "trail;TOTDEV;9"] = ["a"] :=
  ⟨(C10_trailing_discarded ["aENDData"] "trail;TOTDEV;9").1 (by decide),
    (C10_trailing_discarded ["aENDData"] "trail;TOTDEV;9").2 (some 5) (by decide),
    by decide⟩
